import Mathlib

/-!
Shallow embedding of the Transformer encoder notebook
(`transformer_exploration.ipynb`): batched rank-3 tensors, the positional
encoding table, scaled dot-product attention, multi-head attention, the
position-wise feed-forward network, the encoder layer and the encoder stack,
together with the constructor assertions.  Transcendental scalar functions
(exp, log, sin, cos, sqrt) are abstracted into a supplied `ScalarOps` record,
matching the spec's treatment of the numeric tensor library as an external
primitive; every other operation is translated from the notebook source.
-/

namespace Transformer

/-- Abstract scalar primitives supplied by the tensor library (the notebook
uses `torch.exp`, `math.log`, `torch.sin`, `torch.cos`, `torch.sqrt`). -/
structure ScalarOps where
  exp : ℚ → ℚ
  log : ℚ → ℚ
  sin : ℚ → ℚ
  cos : ℚ → ℚ
  sqrt : ℚ → ℚ

/-- A batched rank-3 tensor of shape `(B, L, D)`; `data` carries the entries
and is meaningful on indices below `B`, `L`, `D` respectively. -/
@[ext]
structure T3 where
  B : ℕ
  L : ℕ
  D : ℕ
  data : ℕ → ℕ → ℕ → ℚ

/-- Sum `f 0 + ... + f (n - 1)`, the reduction underlying the tensor ops. -/
def sumF : ℕ → (ℕ → ℚ) → ℚ
  | 0, _ => 0
  | n + 1, f => sumF n f + f n

/-- Batched matrix multiply, `torch.bmm`: contracts the last axis of `t`
with the middle axis of `u`. -/
def bmm (t u : T3) : T3 :=
  ⟨t.B, t.L, u.D, fun b i j => sumF t.D fun k2 => t.data b i k2 * u.data b k2 j⟩

/-- `tensor.transpose(1, 2)`: swaps the two trailing axes. -/
def transpose12 (t : T3) : T3 :=
  ⟨t.B, t.D, t.L, fun b i j => t.data b j i⟩

/-- Division of every entry by a scalar. -/
def divScalar (t : T3) (c : ℚ) : T3 :=
  ⟨t.B, t.L, t.D, fun b i j => t.data b i j / c⟩

/-- Entrywise addition of two tensors of identical shape. -/
def addT (t u : T3) : T3 :=
  ⟨t.B, t.L, t.D, fun b l d2 => t.data b l d2 + u.data b l d2⟩

/-- PyTorch broadcasting of one dimension: sizes are compatible when they
are equal or one of them is 1, in which case the size-1 side is repeated. -/
def broadcastLen (a b : ℕ) : Option ℕ :=
  if a = b then some a else if a = 1 then some b else if b = 1 then some a else none

/-- Index into a dimension of size `n` when the broadcast output index is `i`:
a size-1 dimension is repeated. -/
def bidx (n i : ℕ) : ℕ :=
  if n = 1 then 0 else i

/-- PyTorch `+` on two rank-3 tensors: entrywise when the shapes coincide,
otherwise each dimension is broadcast (equal sizes, or a size-1 side repeated);
incompatible sizes raise a runtime shape error, modelled as `none`. -/
def torchAdd3 (t u : T3) : Option T3 :=
  if t.B = u.B ∧ t.L = u.L ∧ t.D = u.D then some (addT t u)
  else
    (broadcastLen t.B u.B).bind fun b2 =>
      (broadcastLen t.L u.L).bind fun l2 =>
        (broadcastLen t.D u.D).bind fun d2 =>
          some ⟨b2, l2, d2, fun b l d3 =>
            t.data (bidx t.B b) (bidx t.L l) (bidx t.D d3) +
              u.data (bidx u.B b) (bidx u.L l) (bidx u.D d3)⟩

/-- `F.softmax(t, dim=1)` as the notebook calls it: normalizes along the
middle axis (the axis of length `t.L`). -/
def softmax_dim1 (ops : ScalarOps) (t : T3) : T3 :=
  ⟨t.B, t.L, t.D, fun b q j =>
    ops.exp (t.data b q j) / sumF t.L fun q2 => ops.exp (t.data b q2 j)⟩

/-- Parameters of `nn.Linear(in_features, out_features)` with bias. -/
structure LinearP where
  in_features : ℕ
  out_features : ℕ
  weight : ℕ → ℕ → ℚ
  bias : ℕ → ℚ

/-- Application of an `nn.Linear` layer along the last axis. -/
def linear_apply (p : LinearP) (t : T3) : T3 :=
  ⟨t.B, t.L, p.out_features, fun b l o =>
    sumF p.in_features (fun i => p.weight o i * t.data b l i) + p.bias o⟩

/-- Application of an `nn.Linear(..., bias=False)` layer along the last axis. -/
def linear_no_bias (in_features out_features : ℕ) (w : ℕ → ℕ → ℚ) (t : T3) : T3 :=
  ⟨t.B, t.L, out_features, fun b l o => sumF in_features fun i => w o i * t.data b l i⟩

/-- `F.relu`: entrywise maximum with 0. -/
def reluT (t : T3) : T3 :=
  ⟨t.B, t.L, t.D, fun b l d2 => max (t.data b l d2) 0⟩

/-- The notebook's `division_term` vector: entry `i` is
`exp(even_dimensions[i] * (-log 10000 / d_model))` with `even_dimensions[i] = 2*i`. -/
def division_term (ops : ScalarOps) (d_model i : ℕ) : ℚ :=
  ops.exp (((2 * i : ℕ) : ℚ) * (-ops.log 10000 / (d_model : ℚ)))

/-- `PositionalEncoding.compute_positional_encoding_matrix`: the `(1, M, D)`
table whose strided column assignments `0::2` and `1::2` place
`sin(p * division_term i)` at column `2*i` and `cos(p * division_term i)` at
column `2*i + 1` (the assignment requires `d_model` even, as the spec states,
so every even column holds the sine row and every odd column the cosine row). -/
def compute_positional_encoding_matrix (ops : ScalarOps) (max_seq_length d_model : ℕ) : T3 :=
  ⟨1, max_seq_length, d_model, fun _ p d2 =>
    if d2 % 2 = 0 then ops.sin ((p : ℚ) * division_term ops d_model (d2 / 2))
    else ops.cos ((p : ℚ) * division_term ops d_model (d2 / 2))⟩

/-- `PositionalEncoding.forward`: `embedding + pe[:, :embedding.shape[1], :]`;
the slice keeps the first `min L M` positions and the `+` is PyTorch
broadcasting (`none` on a shape error). -/
def positional_encoding_forward (pe : T3) (embedding : T3) : Option T3 :=
  torchAdd3 embedding ⟨pe.B, min embedding.L pe.L, pe.D, pe.data⟩

/-- The attention-weight tensor of `ScaledDotProductAttention.forward`:
`F.softmax(Q Kᵀ / sqrt d_k, dim=1)` exactly as the notebook computes it. -/
def sdpa_weights (ops : ScalarOps) (queries keys : T3) : T3 :=
  softmax_dim1 ops (divScalar (bmm queries (transpose12 keys)) (ops.sqrt ((queries.D : ℚ))))

/-- `ScaledDotProductAttention.forward`: the weight tensor multiplied into the
values. -/
def scaled_dot_product_attention (ops : ScalarOps) (queries keys values : T3) : T3 :=
  bmm (sdpa_weights ops queries keys) values

/-- Parameters of `MultiHeadAttention`: per-head bias-free projection weights
(indexed head → out-feature → in-feature) and the recombination layer
`multi_head_linear = nn.Linear(num_heads * d_v, d_model)` with bias. -/
structure MultiHeadAttentionP where
  num_heads : ℕ
  d_k : ℕ
  d_v : ℕ
  d_model : ℕ
  queries_projections : ℕ → ℕ → ℕ → ℚ
  keys_projections : ℕ → ℕ → ℕ → ℚ
  values_projections : ℕ → ℕ → ℕ → ℚ
  multi_head_linear : LinearP

/-- One head of `MultiHeadAttention.forward`: scaled dot-product attention on
this head's bias-free Q/K/V projections of the inputs. -/
def mha_head (ops : ScalarOps) (m : MultiHeadAttentionP) (h : ℕ)
    (queries keys values : T3) : T3 :=
  scaled_dot_product_attention ops
    (linear_no_bias m.d_model m.d_k (m.queries_projections h) queries)
    (linear_no_bias m.d_model m.d_k (m.keys_projections h) keys)
    (linear_no_bias m.d_model m.d_v (m.values_projections h) values)

/-- `torch.cat(heads, dim=2)` for `num_heads` tensors that all share the last
dimension `d_v` (as the per-head attention outputs do): output feature `j`
comes from head `j / d_v` at feature `j % d_v`, in head order `0, ..., H-1`. -/
def cat_dim2 (num_heads d_v : ℕ) (f : ℕ → T3) : T3 :=
  ⟨(f 0).B, (f 0).L, num_heads * d_v, fun b l j => (f (j / d_v)).data b l (j % d_v)⟩

/-- `MultiHeadAttention.forward`: per-head attention, concatenation along the
feature axis, recombination linear map. -/
def multi_head_attention_forward (ops : ScalarOps) (m : MultiHeadAttentionP)
    (queries keys values : T3) : T3 :=
  linear_apply m.multi_head_linear
    (cat_dim2 m.num_heads m.d_v (fun h => mha_head ops m h queries keys values))

/-- The three `assert` statements of `MultiHeadAttention.__init__` (plus the
`ZeroDivisionError` Python raises on `% 0`, which likewise aborts
construction): construction succeeds exactly when this is `true`. -/
def multi_head_attention_init_ok (num_heads d_k d_v d_model : ℕ) : Bool :=
  (num_heads != 0) && (d_model % num_heads == 0) &&
    (d_k == d_model / num_heads) && (d_v == d_model / num_heads)

/-- Parameters of `PositionWiseFeedForwardNetwork`. -/
structure FFNP where
  linear_1 : LinearP
  linear_2 : LinearP

/-- `PositionWiseFeedForwardNetwork.__init__`: `linear_1 : d_model → d_ff` and
`linear_2 : d_ff → d_model`, both with bias, with the source default
`d_ff = 2048`. -/
def position_wise_feed_forward_network (d_model : ℕ) (w1 : ℕ → ℕ → ℚ) (b1 : ℕ → ℚ)
    (w2 : ℕ → ℕ → ℚ) (b2 : ℕ → ℚ) (d_ff : ℕ := 2048) : FFNP :=
  ⟨⟨d_model, d_ff, w1, b1⟩, ⟨d_ff, d_model, w2, b2⟩⟩

/-- `PositionWiseFeedForwardNetwork.forward`: `linear_2(relu(linear_1 x))`. -/
def ffn_forward (p : FFNP) (x : T3) : T3 :=
  linear_apply p.linear_2 (reluT (linear_apply p.linear_1 x))

/-- Parameters of `nn.LayerNorm(normalized_shape=dim)`: learned per-feature
scale and shift and the stabilizing `eps`. -/
structure LayerNormP where
  dim : ℕ
  gamma : ℕ → ℚ
  beta : ℕ → ℚ
  eps : ℚ

/-- `nn.LayerNorm` application: standardize each feature vector (biased
variance, `eps` inside the square root), then the learned affine map. -/
def layer_norm_apply (ops : ScalarOps) (p : LayerNormP) (t : T3) : T3 :=
  ⟨t.B, t.L, t.D, fun b l d2 =>
    (t.data b l d2 - sumF p.dim (t.data b l) / (p.dim : ℚ)) /
        ops.sqrt (sumF p.dim
            (fun j => (t.data b l j - sumF p.dim (t.data b l) / (p.dim : ℚ)) ^ 2) /
            (p.dim : ℚ) + p.eps) *
        p.gamma d2 +
      p.beta d2⟩

/-- Parameters of `EncoderLayer`. -/
structure EncoderLayerP where
  multi_head_attention : MultiHeadAttentionP
  layer_normalization_1 : LayerNormP
  position_wise_feed_forward_network : FFNP
  layer_normalization_2 : LayerNormP

/-- `EncoderLayer.forward`: `x + MHA(x,x,x)`, layer norm, `+ FFN`, layer norm,
with the residual additions performed by the PyTorch broadcasting `+`. -/
def encoder_layer_forward (ops : ScalarOps) (p : EncoderLayerP) (x : T3) : Option T3 :=
  (torchAdd3 x (multi_head_attention_forward ops p.multi_head_attention x x x)).bind fun x1 =>
    (torchAdd3 (layer_norm_apply ops p.layer_normalization_1 x1)
        (ffn_forward p.position_wise_feed_forward_network
          (layer_norm_apply ops p.layer_normalization_1 x1))).bind fun x3 =>
      some (layer_norm_apply ops p.layer_normalization_2 x3)

/-- `EncoderLayer.__init__` builds a `MultiHeadAttention` with the same
arguments, so it succeeds exactly when that construction does. -/
def encoder_layer_init_ok (num_heads d_k d_v d_model : ℕ) : Bool :=
  multi_head_attention_init_ok num_heads d_k d_v d_model

/-- `TransformerEncoder.forward`: the sequential `for layer in layers` loop. -/
def transformer_encoder_forward (ops : ScalarOps) (layers : List EncoderLayerP)
    (x : T3) : Option T3 :=
  layers.foldl (fun acc p => acc.bind (encoder_layer_forward ops p)) (some x)

/-- `TransformerEncoder.__init__` builds `num_layers` encoder layers, passing
`sequence_length` as both `d_k` and `d_v`; with zero layers nothing is built
and nothing can fail. -/
def transformer_encoder_init_ok (num_layers num_heads sequence_length d_model : ℕ) : Bool :=
  (num_layers == 0) || encoder_layer_init_ok num_heads sequence_length sequence_length d_model

/-- Modelled from the spec: the post-norm composition formula of section 4.6,
`LayerNorm2(x2 + FeedForward(x2))` for `x2 = LayerNorm1(x + MHA(x, x, x))`,
stated with plain entrywise residual additions, for comparison with the
code's `encoder_layer_forward`. -/
def spec_post_norm_composition (ops : ScalarOps) (p : EncoderLayerP) (x : T3) : T3 :=
  layer_norm_apply ops p.layer_normalization_2
    (addT
      (layer_norm_apply ops p.layer_normalization_1
        (addT x (multi_head_attention_forward ops p.multi_head_attention x x x)))
      (ffn_forward p.position_wise_feed_forward_network
        (layer_norm_apply ops p.layer_normalization_1
          (addT x (multi_head_attention_forward ops p.multi_head_attention x x x)))))

/-- Modelled from the spec: the three-step multi-head formula of section 4.4 —
per-head attention in head order, concatenation along the feature axis,
recombination linear map — for comparison with the code's forward pass. -/
def spec_multi_head_composition (ops : ScalarOps) (m : MultiHeadAttentionP)
    (queries keys values : T3) : T3 :=
  linear_apply m.multi_head_linear
    (cat_dim2 m.num_heads m.d_v (fun h => mha_head ops m h queries keys values))

/-- Concrete scalar operations used by witnesses and counterexamples; `exp` is
faithful to the real exponential at the only point the evaluations force,
`exp 0 = 1`, and `sqrt 1 = 1`. -/
def opsA : ScalarOps :=
  ⟨fun x => 1 + x, fun x => x, fun x => x, fun x => 1 - x, fun x => x⟩

/-- Concrete queries of shape `(1, 2, 1)`, identically zero. -/
def queriesA : T3 := ⟨1, 2, 1, fun _ _ _ => 0⟩

/-- Concrete keys of shape `(1, 1, 1)`, identically zero. -/
def keysA : T3 := ⟨1, 1, 1, fun _ _ _ => 0⟩

/-- Concrete zero embedding of shape `(1, 2, 2)`: two positions. -/
def embeddingA : T3 := ⟨1, 2, 2, fun _ _ _ => 0⟩

/-- Concrete zero embedding of shape `(1, 3, 2)`: three positions. -/
def embeddingB : T3 := ⟨1, 3, 2, fun _ _ _ => 0⟩

/-- Concrete 1 → 1 linear layer with zero weight and bias. -/
def linearA : LinearP := ⟨1, 1, fun _ _ => 0, fun _ => 0⟩

/-- Concrete single-head attention with `d_k = d_v = d_model = 1`. -/
def mhaA : MultiHeadAttentionP :=
  ⟨1, 1, 1, 1, fun _ _ _ => 0, fun _ _ _ => 0, fun _ _ _ => 0, linearA⟩

/-- Concrete layer normalization over one feature. -/
def layerNormA : LayerNormP := ⟨1, fun _ => 1, fun _ => 0, 1⟩

/-- Concrete feed-forward network with `d_model = d_ff = 1`. -/
def ffnA : FFNP :=
  position_wise_feed_forward_network 1 (fun _ _ => 0) (fun _ => 0) (fun _ _ => 0) (fun _ => 0) 1

/-- Concrete encoder layer assembled from the pieces above. -/
def encoderLayerA : EncoderLayerP := ⟨mhaA, layerNormA, ffnA, layerNormA⟩

/-- Concrete input of shape `(1, 1, 1)`, identically zero. -/
def xA : T3 := ⟨1, 1, 1, fun _ _ _ => 0⟩

/-- Concrete tensor of shape `(2, 2, 1)` that agrees with `xA` at batch 0,
position 0 and differs elsewhere. -/
def yA : T3 := ⟨2, 2, 1, fun b l _ => if b + l = 0 then 0 else 3⟩

theorem sumF_congr {n : ℕ} {f g : ℕ → ℚ} (h : ∀ i, i < n → f i = g i) :
    sumF n f = sumF n g := by
  induction n with
  | zero => rfl
  | succ m ih =>
    simp only [sumF]
    rw [ih (fun i hi => h i (Nat.lt_succ_of_lt hi)), h m (Nat.lt_succ_self m)]

theorem option_some_bind {α β : Type} (a : α) (f : α → Option β) :
    (Option.some a).bind f = f a := rfl

theorem torchAdd3_same (t u : T3) (hB : t.B = u.B) (hL : t.L = u.L) (hD : t.D = u.D) :
    torchAdd3 t u = some (addT t u) := by
  unfold torchAdd3
  rw [if_pos ⟨hB, hL, hD⟩]

theorem bidx_of_lt {n i : ℕ} (h : i < n) : bidx n i = i := by
  unfold bidx
  split
  · omega
  · rfl

theorem broadcastLen_one_right (a : ℕ) : broadcastLen a 1 = some a := by
  unfold broadcastLen
  by_cases h : a = 1
  · simp [h]
  · simp [h]

theorem broadcastLen_self (a : ℕ) : broadcastLen a a = some a := by
  unfold broadcastLen
  simp

theorem encoder_layer_forward_eq (ops : ScalarOps) (p : EncoderLayerP) (x : T3)
    (h1 : p.multi_head_attention.multi_head_linear.out_features = x.D)
    (h2 : p.position_wise_feed_forward_network.linear_2.out_features = x.D) :
    encoder_layer_forward ops p x = some (spec_post_norm_composition ops p x) := by
  unfold encoder_layer_forward
  rw [torchAdd3_same x (multi_head_attention_forward ops p.multi_head_attention x x x)
    rfl rfl h1.symm]
  rw [option_some_bind]
  rw [torchAdd3_same
    (layer_norm_apply ops p.layer_normalization_1
      (addT x (multi_head_attention_forward ops p.multi_head_attention x x x)))
    (ffn_forward p.position_wise_feed_forward_network
      (layer_norm_apply ops p.layer_normalization_1
        (addT x (multi_head_attention_forward ops p.multi_head_attention x x x))))
    rfl rfl h2.symm]
  rw [option_some_bind]
  rfl

theorem encoder_layer_shape (ops : ScalarOps) (p : EncoderLayerP) (x : T3)
    (h1 : p.multi_head_attention.multi_head_linear.out_features = x.D)
    (h2 : p.position_wise_feed_forward_network.linear_2.out_features = x.D) :
    ∃ y, encoder_layer_forward ops p x = some y ∧ y.B = x.B ∧ y.L = x.L ∧ y.D = x.D :=
  ⟨spec_post_norm_composition ops p x, encoder_layer_forward_eq ops p x h1 h2, rfl, rfl, rfl⟩

theorem tef_nil (ops : ScalarOps) (x : T3) :
    transformer_encoder_forward ops [] x = some x := rfl

theorem tef_foldl_none (ops : ScalarOps) (ls : List EncoderLayerP) :
    List.foldl (fun acc p => acc.bind (encoder_layer_forward ops p)) none ls = none := by
  induction ls with
  | nil => rfl
  | cons p ls ih => simpa using ih

theorem tef_cons (ops : ScalarOps) (p : EncoderLayerP) (ls : List EncoderLayerP) (x : T3) :
    transformer_encoder_forward ops (p :: ls) x
      = (encoder_layer_forward ops p x).bind (transformer_encoder_forward ops ls) := by
  show List.foldl _ (encoder_layer_forward ops p x) ls = _
  cases h : encoder_layer_forward ops p x with
  | none => simp [tef_foldl_none]
  | some y => rfl

theorem mha_init_ok_iff {num_heads d_k d_v d_model : ℕ} (h : 0 < num_heads) :
    multi_head_attention_init_ok num_heads d_k d_v d_model = true
      ↔ d_model % num_heads = 0 ∧ d_k = d_model / num_heads ∧ d_v = d_model / num_heads := by
  unfold multi_head_attention_init_ok
  simp [Bool.and_eq_true, beq_iff_eq, bne_iff_ne, h.ne', and_assoc]

theorem torchAdd3_bcast (t : T3) (L2 D2 : ℕ) (f : ℕ → ℕ → ℕ → ℚ)
    (hL : t.L = L2) (hD : t.D = D2) :
    ∃ y, torchAdd3 t ⟨1, L2, D2, f⟩ = some y ∧ y.B = t.B ∧ y.L = t.L ∧ y.D = t.D ∧
      ∀ b l d2, b < t.B → l < t.L → d2 < t.D →
        y.data b l d2 = t.data b l d2 + f 0 l d2 := by
  unfold torchAdd3
  by_cases hB : t.B = 1
  · rw [if_pos ⟨hB, hL, hD⟩]
    refine ⟨addT t ⟨1, L2, D2, f⟩, rfl, rfl, rfl, rfl, ?_⟩
    intro b l d2 hb _ _
    have hb0 : b = 0 := by omega
    subst hb0
    rfl
  · rw [if_neg (fun hc => hB hc.1)]
    subst hL
    subst hD
    rw [broadcastLen_one_right, option_some_bind, broadcastLen_self, option_some_bind,
      broadcastLen_self, option_some_bind]
    refine ⟨_, rfl, rfl, rfl, rfl, ?_⟩
    intro b l d2 hb hl hd2
    show t.data (bidx t.B b) (bidx t.L l) (bidx t.D d2) +
        f (bidx 1 b) (bidx t.L l) (bidx t.D d2) = _
    rw [bidx_of_lt hb, bidx_of_lt hl, bidx_of_lt hd2]
    have h1 : bidx 1 b = 0 := by unfold bidx; simp
    rw [h1]

theorem torchAdd3_mismatch (t : T3) (L2 D2 : ℕ) (f : ℕ → ℕ → ℕ → ℚ)
    (h1 : t.L ≠ L2) (h2 : t.L ≠ 1) (h3 : L2 ≠ 1) :
    torchAdd3 t ⟨1, L2, D2, f⟩ = none := by
  unfold torchAdd3
  rw [if_neg (fun hc => h1 hc.2.1)]
  rw [broadcastLen_one_right, option_some_bind]
  have hnone : broadcastLen t.L L2 = none := by
    unfold broadcastLen
    simp [h1, h2, h3]
  rw [hnone]
  rfl

/-- C1: the spec states that Scaled Dot-Product Attention normalizes softmax
over the key axis, so the weights over all keys sum to 1 for every batch
element and query position.  The code instead calls `F.softmax(scaled, dim=1)`,
normalizing over the query axis of the `(B, Lq, Lk)` score tensor.  Evaluating
the code's weight tensor at zero queries of shape `(1, 2, 1)` and a zero key
of shape `(1, 1, 1)` — every score is 0, and the abstract `exp` agrees with
the real exponential at the only forced point, `exp 0 = 1` — the weights over
the single key sum to 1/2, not 1. -/
theorem claim_C1_softmax_axis :
    sumF keysA.L (fun j => (sdpa_weights opsA queriesA keysA).data 0 0 j) = 1 / 2 ∧
      sumF keysA.L (fun j => (sdpa_weights opsA queriesA keysA).data 0 0 j) ≠ 1 := by
  have h : sumF keysA.L (fun j => (sdpa_weights opsA queriesA keysA).data 0 0 j) = 1 / 2 := by
    simp [sdpa_weights, softmax_dim1, divScalar, bmm, transpose12, sumF, opsA,
      queriesA, keysA]
    norm_num
  exact ⟨h, by rw [h]; norm_num⟩

/-- C2 counterexample: with `num_layers = 0` the constructor builds no encoder
layer, so no assertion runs and construction succeeds even though
`sequence_length = 5` differs from `d_model / num_heads = 1 / 1 = 1` (and the
divisibility constraint `1 % 1 = 0` holds) — refuting the claim's "for every
num_layers". -/
theorem claim_C2_counterexample :
    transformer_encoder_init_ok 0 1 5 1 = true ∧ 1 % 1 = 0 ∧ (5 : ℕ) ≠ 1 / 1 := by
  decide

/-- C2 (amended): for every `num_layers ≥ 1` and `num_heads ≥ 1` with
`d_model` divisible by `num_heads`, constructing a `TransformerEncoder`
succeeds exactly when `sequence_length = d_model / num_heads`, because the
constructor passes `sequence_length` as each layer's `d_k` and `d_v`; with
`num_layers = 0` no layer is built and construction always succeeds. -/
theorem claim_C2_encoder_init (num_layers num_heads sequence_length d_model : ℕ)
    (hl : 1 ≤ num_layers) (hh : 0 < num_heads) (hd : d_model % num_heads = 0) :
    transformer_encoder_init_ok num_layers num_heads sequence_length d_model = true
      ↔ sequence_length = d_model / num_heads := by
  unfold transformer_encoder_init_ok encoder_layer_init_ok
  have h0 : num_layers ≠ 0 := by omega
  simp [h0, mha_init_ok_iff hh, hd]

theorem claim_C2_witness :
    transformer_encoder_init_ok 1 8 64 512 = true ↔ 64 = 512 / 8 :=
  claim_C2_encoder_init 1 8 64 512 (by decide) (by decide) (by decide)

/-- C3: Multi-Head Attention construction fails exactly when `d_model` is not
divisible by `num_heads` or a declared per-head dimension differs from
`d_model / num_heads`, and succeeds otherwise; in particular `d_model = 512`,
`num_heads = 7` fails for every declared `d_k`, `d_v`, while `d_model = 512`,
`num_heads = 8`, `d_k = d_v = 64` succeeds. -/
theorem claim_C3_mha_init :
    (∀ num_heads d_k d_v d_model : ℕ, 0 < num_heads →
        (multi_head_attention_init_ok num_heads d_k d_v d_model = true
          ↔ d_model % num_heads = 0 ∧ d_k = d_model / num_heads ∧
              d_v = d_model / num_heads)) ∧
      (∀ d_k d_v : ℕ, multi_head_attention_init_ok 7 d_k d_v 512 = false) ∧
      multi_head_attention_init_ok 8 64 64 512 = true :=
  ⟨fun _ _ _ _ h => mha_init_ok_iff h, fun _ _ => rfl, by decide⟩

theorem claim_C3_witness :
    multi_head_attention_init_ok 8 64 64 512 = true
      ↔ 512 % 8 = 0 ∧ 64 = 512 / 8 ∧ 64 = 512 / 8 :=
  claim_C3_mha_init.1 8 64 64 512 (by decide)

/-- C4: for every input `x` whose feature dimension matches the layer's
`d_model` (the dimension the attention recombination and the second
feed-forward linear map produce), the encoder layer's forward pass equals the
spec's post-norm composition
`LayerNorm2((LayerNorm1(x + MHA(x,x,x))) + FFN(LayerNorm1(x + MHA(x,x,x))))`
with `Q = K = V = x`, and the result keeps the shape of `x`. -/
theorem claim_C4_encoder_layer (ops : ScalarOps) (p : EncoderLayerP) (x : T3)
    (h1 : p.multi_head_attention.multi_head_linear.out_features = x.D)
    (h2 : p.position_wise_feed_forward_network.linear_2.out_features = x.D) :
    encoder_layer_forward ops p x = some (spec_post_norm_composition ops p x) ∧
      (spec_post_norm_composition ops p x).B = x.B ∧
      (spec_post_norm_composition ops p x).L = x.L ∧
      (spec_post_norm_composition ops p x).D = x.D :=
  ⟨encoder_layer_forward_eq ops p x h1 h2, rfl, rfl, rfl⟩

theorem claim_C4_witness :
    encoder_layer_forward opsA encoderLayerA xA
        = some (spec_post_norm_composition opsA encoderLayerA xA) ∧
      (spec_post_norm_composition opsA encoderLayerA xA).B = xA.B ∧
      (spec_post_norm_composition opsA encoderLayerA xA).L = xA.L ∧
      (spec_post_norm_composition opsA encoderLayerA xA).D = xA.D :=
  claim_C4_encoder_layer opsA encoderLayerA xA rfl rfl

/-- C5: the precomputed positional-encoding table satisfies
`PE[p, 2i] = sin(p * w i)` and `PE[p, 2i+1] = cos(p * w i)` with
`w i = exp(-2i * log 10000 / d_model)`, for every position `p < M` and pair
index `i < d_model / 2`, for even `d_model`. -/
theorem claim_C5_positional_encoding (ops : ScalarOps) (max_seq_length d_model p i : ℕ)
    (he : d_model % 2 = 0) (hp : p < max_seq_length) (hi : i < d_model / 2) :
    (compute_positional_encoding_matrix ops max_seq_length d_model).data 0 p (2 * i)
        = ops.sin ((p : ℚ) * ops.exp (-(2 * (i : ℚ)) * ops.log 10000 / (d_model : ℚ))) ∧
      (compute_positional_encoding_matrix ops max_seq_length d_model).data 0 p (2 * i + 1)
        = ops.cos ((p : ℚ) * ops.exp (-(2 * (i : ℚ)) * ops.log 10000 / (d_model : ℚ))) := by
  have hmod : (2 * i) % 2 = 0 := by omega
  have hdiv : 2 * i / 2 = i := by omega
  have hmod2 : (2 * i + 1) % 2 = 1 := by omega
  have hdiv2 : (2 * i + 1) / 2 = i := by omega
  have harg : division_term ops d_model i
      = ops.exp (-(2 * (i : ℚ)) * ops.log 10000 / (d_model : ℚ)) := by
    unfold division_term
    congr 1
    push_cast
    ring
  constructor <;>
    simp [compute_positional_encoding_matrix, hmod, hdiv, hmod2, hdiv2, harg]

theorem claim_C5_witness :
    (compute_positional_encoding_matrix opsA 2 2).data 0 1 (2 * 0)
        = opsA.sin (((1 : ℕ) : ℚ) *
            opsA.exp (-(2 * ((0 : ℕ) : ℚ)) * opsA.log 10000 / ((2 : ℕ) : ℚ))) ∧
      (compute_positional_encoding_matrix opsA 2 2).data 0 1 (2 * 0 + 1)
        = opsA.cos (((1 : ℕ) : ℚ) *
            opsA.exp (-(2 * ((0 : ℕ) : ℚ)) * opsA.log 10000 / ((2 : ℕ) : ℚ))) :=
  claim_C5_positional_encoding opsA 2 2 1 0 (by decide) (by decide) (by decide)

/-- C6 counterexample: with `max_seq_length = 1` the slice
`pe[:, :L, :]` has middle dimension 1, which PyTorch broadcasting silently
repeats, so the forward pass on a length-2 input succeeds instead of failing —
refuting the claim's "for every input with L > M it fails". -/
theorem claim_C6_counterexample :
    embeddingA.L = 2 ∧
      (positional_encoding_forward
          (compute_positional_encoding_matrix opsA 1 2) embeddingA).isSome = true :=
  ⟨rfl, rfl⟩

/-- C6 (amended): for every input of shape `(B, L, D)` with `L ≤ M` the
positional encoder returns `input + PE[0:L, :]` broadcast over the batch
dimension; for `L > M` it fails with a shape error provided `M ≥ 2` — when
`M = 1` the sliced table has middle dimension 1 and broadcasting silently
adds the single encoding row to every position instead of failing. -/
theorem claim_C6_pe_forward (ops : ScalarOps) (max_seq_length d_model : ℕ) (embedding : T3)
    (hD : embedding.D = d_model) :
    (embedding.L ≤ max_seq_length →
        ∃ y, positional_encoding_forward
              (compute_positional_encoding_matrix ops max_seq_length d_model) embedding
            = some y ∧
          y.B = embedding.B ∧ y.L = embedding.L ∧ y.D = embedding.D ∧
          ∀ b l d2, b < y.B → l < y.L → d2 < y.D →
            y.data b l d2 = embedding.data b l d2 +
              (compute_positional_encoding_matrix ops max_seq_length d_model).data 0 l d2) ∧
      (2 ≤ max_seq_length → max_seq_length < embedding.L →
        positional_encoding_forward
            (compute_positional_encoding_matrix ops max_seq_length d_model) embedding
          = none) := by
  constructor
  · intro hL
    have hmin : min embedding.L max_seq_length = embedding.L := min_eq_left hL
    obtain ⟨y, hy, hB, hLy, hDy, hdata⟩ :=
      torchAdd3_bcast embedding (min embedding.L max_seq_length) d_model
        (compute_positional_encoding_matrix ops max_seq_length d_model).data
        hmin.symm hD
    exact ⟨y, hy, hB, hLy, hDy, fun b l d2 hb hl hd2 => by
      rw [hdata b l d2 (by omega : b < embedding.B) (by omega : l < embedding.L)
        (by omega : d2 < embedding.D)]⟩
  · intro hM hLM
    have hmin : min embedding.L max_seq_length = max_seq_length := min_eq_right hLM.le
    exact torchAdd3_mismatch embedding (min embedding.L max_seq_length) d_model
      (compute_positional_encoding_matrix ops max_seq_length d_model).data
      (by omega) (by omega) (by omega)

theorem claim_C6_witness :
    positional_encoding_forward (compute_positional_encoding_matrix opsA 2 2) embeddingB
      = none :=
  (claim_C6_pe_forward opsA 2 2 embeddingB rfl).2 (by decide) (by decide)

/-- C7: Multi-Head Attention computes, per head in fixed order, scaled
dot-product attention over that head's bias-free Q/K/V projections,
concatenates the per-head results along the feature axis into shape
`(B, L, H * d_v)`, and applies the output recombination linear map (with
bias) to produce a `(B, L, d_model)` result; output feature `o` draws
coefficient `j` of the recombination weight from head `j / d_v` at per-head
feature `j % d_v`. -/
theorem claim_C7_multi_head (ops : ScalarOps) (m : MultiHeadAttentionP)
    (queries keys values : T3)
    (h1 : m.multi_head_linear.in_features = m.num_heads * m.d_v)
    (h2 : m.multi_head_linear.out_features = m.d_model) :
    multi_head_attention_forward ops m queries keys values
        = spec_multi_head_composition ops m queries keys values ∧
      (cat_dim2 m.num_heads m.d_v (fun h => mha_head ops m h queries keys values)).B
        = queries.B ∧
      (cat_dim2 m.num_heads m.d_v (fun h => mha_head ops m h queries keys values)).L
        = queries.L ∧
      (cat_dim2 m.num_heads m.d_v (fun h => mha_head ops m h queries keys values)).D
        = m.num_heads * m.d_v ∧
      (multi_head_attention_forward ops m queries keys values).B = queries.B ∧
      (multi_head_attention_forward ops m queries keys values).L = queries.L ∧
      (multi_head_attention_forward ops m queries keys values).D = m.d_model ∧
      ∀ b l o,
        (multi_head_attention_forward ops m queries keys values).data b l o
          = sumF (m.num_heads * m.d_v)
              (fun j => m.multi_head_linear.weight o j *
                (mha_head ops m (j / m.d_v) queries keys values).data b l (j % m.d_v)) +
            m.multi_head_linear.bias o := by
  refine ⟨rfl, rfl, rfl, rfl, rfl, rfl, h2, fun b l o => ?_⟩
  show sumF m.multi_head_linear.in_features
      (fun j => m.multi_head_linear.weight o j *
        (cat_dim2 m.num_heads m.d_v
          (fun h => mha_head ops m h queries keys values)).data b l j) +
      m.multi_head_linear.bias o = _
  rw [h1]
  rfl

theorem claim_C7_witness :
    multi_head_attention_forward opsA mhaA xA xA xA
        = spec_multi_head_composition opsA mhaA xA xA xA ∧
      (multi_head_attention_forward opsA mhaA xA xA xA).D = mhaA.d_model ∧
      (multi_head_attention_forward opsA mhaA xA xA xA).data 0 0 0
        = sumF (mhaA.num_heads * mhaA.d_v)
            (fun j => mhaA.multi_head_linear.weight 0 j *
              (mha_head opsA mhaA (j / mhaA.d_v) xA xA xA).data 0 0 (j % mhaA.d_v)) +
          mhaA.multi_head_linear.bias 0 :=
  ⟨(claim_C7_multi_head opsA mhaA xA xA xA rfl rfl).1,
    (claim_C7_multi_head opsA mhaA xA xA xA rfl rfl).2.2.2.2.2.2.1,
    (claim_C7_multi_head opsA mhaA xA xA xA rfl rfl).2.2.2.2.2.2.2 0 0 0⟩

/-- C8: the encoder stack applies its layers strictly in sequence — the empty
stack is the identity and a non-empty stack feeds layer `p`'s output into the
rest — with no extra normalization or residual wrapping, and for every input
whose feature dimension matches every layer's output dimensions the stack
returns a tensor of the same shape `(B, L, D)`. -/
theorem claim_C8_encoder_stack (ops : ScalarOps) :
    (∀ x : T3, transformer_encoder_forward ops [] x = some x) ∧
      (∀ (p : EncoderLayerP) (ls : List EncoderLayerP) (x : T3),
        transformer_encoder_forward ops (p :: ls) x
          = (encoder_layer_forward ops p x).bind (transformer_encoder_forward ops ls)) ∧
      ∀ (layers : List EncoderLayerP) (x : T3),
        (∀ p ∈ layers,
            p.multi_head_attention.multi_head_linear.out_features = x.D ∧
              p.position_wise_feed_forward_network.linear_2.out_features = x.D) →
        ∃ y, transformer_encoder_forward ops layers x = some y ∧
          y.B = x.B ∧ y.L = x.L ∧ y.D = x.D := by
  refine ⟨tef_nil ops, tef_cons ops, ?_⟩
  intro layers
  induction layers with
  | nil => exact fun x _ => ⟨x, rfl, rfl, rfl, rfl⟩
  | cons p ls ih =>
    intro x hwf
    obtain ⟨h1, h2⟩ := hwf p (List.mem_cons_self p ls)
    obtain ⟨y, hy, hB, hL, hD⟩ := encoder_layer_shape ops p x h1 h2
    obtain ⟨z, hz, zB, zL, zD⟩ := ih y (fun q hq => by
      obtain ⟨a, b⟩ := hwf q (List.mem_cons_of_mem p hq)
      rw [hD]
      exact ⟨a, b⟩)
    refine ⟨z, ?_, by rw [zB, hB], by rw [zL, hL], by rw [zD, hD]⟩
    rw [tef_cons, hy, option_some_bind, hz]

theorem claim_C8_witness :
    (transformer_encoder_forward opsA [encoderLayerA] xA).isSome = true := by
  obtain ⟨y, hy, -, -, -⟩ :=
    (claim_C8_encoder_stack opsA).2.2 [encoderLayerA] xA (by
      intro p hp
      rw [List.mem_singleton] at hp
      subst hp
      exact ⟨rfl, rfl⟩)
  rw [hy]
  rfl

/-- C9: the position-wise feed-forward network returns
`linear_2(relu(linear_1 x))` with `linear_1 : d_model → d_ff` (source default
`d_ff = 2048`) and `linear_2 : d_ff → d_model`, both with bias; it preserves
the shape `(B, L, d_model)`, and the output at any `(batch, position)` pair
depends only on the input feature vector at that same pair. -/
theorem claim_C9_ffn (d_model d_ff : ℕ) (w1 : ℕ → ℕ → ℚ) (b1 : ℕ → ℚ)
    (w2 : ℕ → ℕ → ℚ) (b2 : ℕ → ℚ) (x : T3) :
    ffn_forward (position_wise_feed_forward_network d_model w1 b1 w2 b2 d_ff) x
        = linear_apply (position_wise_feed_forward_network d_model w1 b1 w2 b2 d_ff).linear_2
            (reluT (linear_apply
              (position_wise_feed_forward_network d_model w1 b1 w2 b2 d_ff).linear_1 x)) ∧
      (ffn_forward (position_wise_feed_forward_network d_model w1 b1 w2 b2 d_ff) x).B = x.B ∧
      (ffn_forward (position_wise_feed_forward_network d_model w1 b1 w2 b2 d_ff) x).L = x.L ∧
      (ffn_forward (position_wise_feed_forward_network d_model w1 b1 w2 b2 d_ff) x).D
        = d_model ∧
      (position_wise_feed_forward_network d_model w1 b1 w2 b2).linear_1.out_features = 2048 ∧
      (position_wise_feed_forward_network d_model w1 b1 w2 b2 d_ff).linear_1.in_features
        = d_model ∧
      (position_wise_feed_forward_network d_model w1 b1 w2 b2 d_ff).linear_1.out_features
        = d_ff ∧
      (position_wise_feed_forward_network d_model w1 b1 w2 b2 d_ff).linear_2.in_features
        = d_ff ∧
      (position_wise_feed_forward_network d_model w1 b1 w2 b2 d_ff).linear_2.out_features
        = d_model ∧
      ∀ (y : T3) (b l : ℕ),
        (∀ d2, x.data b l d2 = y.data b l d2) →
        ∀ o,
          (ffn_forward (position_wise_feed_forward_network d_model w1 b1 w2 b2 d_ff) x).data
              b l o
            = (ffn_forward (position_wise_feed_forward_network d_model w1 b1 w2 b2 d_ff) y).data
                b l o := by
  refine ⟨rfl, rfl, rfl, rfl, rfl, rfl, rfl, rfl, rfl, ?_⟩
  intro y b l hagree o
  have hx : ∀ j : ℕ, sumF d_model (fun i => w1 j i * x.data b l i)
      = sumF d_model (fun i => w1 j i * y.data b l i) :=
    fun j => sumF_congr fun i _ => by rw [hagree i]
  show sumF d_ff
      (fun j => w2 o j * max ((sumF d_model fun i => w1 j i * x.data b l i) + b1 j) 0) + b2 o
    = sumF d_ff
      (fun j => w2 o j * max ((sumF d_model fun i => w1 j i * y.data b l i) + b1 j) 0) + b2 o
  exact congrArg (fun s => s + b2 o) (sumF_congr fun j _ => by rw [hx j])

theorem claim_C9_witness :
    (ffn_forward ffnA xA).data 0 0 0 = (ffn_forward ffnA yA).data 0 0 0 :=
  (claim_C9_ffn 1 1 (fun _ _ => 0) (fun _ => 0) (fun _ _ => 0) (fun _ => 0)
    xA).2.2.2.2.2.2.2.2.2 yA 0 0 (fun _ => rfl) 0

/-- C10: for a Multi-Head Attention with a single head (so the recombination
layer's input width equals `d_v`, as the constructor sets it to
`num_heads * d_v`), the forward pass equals plain scaled dot-product
attention on the single head's projections followed by the recombination
linear map: the concatenation path degenerates to the identity. -/
theorem claim_C10_single_head (ops : ScalarOps) (m : MultiHeadAttentionP)
    (queries keys values : T3) (hH : m.num_heads = 1)
    (hin : m.multi_head_linear.in_features = m.d_v) :
    multi_head_attention_forward ops m queries keys values
      = linear_apply m.multi_head_linear (mha_head ops m 0 queries keys values) := by
  refine T3.ext rfl rfl rfl ?_
  funext b l o
  show sumF m.multi_head_linear.in_features
      (fun j => m.multi_head_linear.weight o j *
        (cat_dim2 m.num_heads m.d_v
          (fun h => mha_head ops m h queries keys values)).data b l j) +
      m.multi_head_linear.bias o
    = sumF m.multi_head_linear.in_features
      (fun j => m.multi_head_linear.weight o j *
        (mha_head ops m 0 queries keys values).data b l j) +
      m.multi_head_linear.bias o
  rw [hin]
  congr 1
  apply sumF_congr
  intro j hj
  show m.multi_head_linear.weight o j *
      (mha_head ops m (j / m.d_v) queries keys values).data b l (j % m.d_v)
    = m.multi_head_linear.weight o j *
      (mha_head ops m 0 queries keys values).data b l j
  rw [Nat.div_eq_of_lt hj, Nat.mod_eq_of_lt hj]

theorem claim_C10_witness :
    multi_head_attention_forward opsA mhaA xA xA xA
      = linear_apply mhaA.multi_head_linear (mha_head opsA mhaA 0 xA xA xA) :=
  claim_C10_single_head opsA mhaA xA xA xA rfl rfl

end Transformer
